/-
Verification of the `util.py` execution core of sublime-text-markmon.

The Python source is shallowly embedded: pure functions become Lean
functions over `String` / `List Char`; the operating-system boundary
(filesystem lookups, process spawning, the login-shell probe, Sublime
settings) is passed in explicitly as oracle functions, and filesystem
side effects of the sandbox builders are recorded as explicit operation
traces interpreted by a small filesystem model.
-/
import Mathlib

set_option autoImplicit false

namespace Markmon

/-! ### Python string primitives

Models of the Python `str` operations the source uses: `str.strip`,
`str.split(sep, maxsplit)`, substring containment (`in`), and
`os.path.basename` / `os.path.dirname` for POSIX paths. -/

/-- Model of Python `str.strip()`: remove whitespace from both ends. -/
def pyStrip (s : List Char) : List Char :=
  ((s.dropWhile Char.isWhitespace).reverse.dropWhile Char.isWhitespace).reverse

/-- Find the first occurrence of `sep` in `s`; return the part before it and
the part after it.  `none` when `sep` does not occur (or is empty). -/
def findSplit (sep : List Char) : List Char → Option (List Char × List Char)
  | [] => none
  | c :: cs =>
    if sep ≠ [] ∧ sep.isPrefixOf (c :: cs) then
      some ([], (c :: cs).drop sep.length)
    else
      (findSplit sep cs).map (fun pq => (c :: pq.1, pq.2))

/-- Model of Python `str.split(sep, maxsplit)` for a non-empty separator:
split at the first `maxsplit` occurrences of `sep`.  Python's unlimited
`split(sep)` is obtained by passing `maxsplit = s.length` (an upper bound on
the number of occurrences). -/
def pySplit (sep : List Char) : List Char → Nat → List (List Char)
  | s, 0 => [s]
  | s, Nat.succ k =>
    match findSplit sep s with
    | none => [s]
    | some (pre, post) => pre :: pySplit sep post k

/-- Model of Python substring containment `needle in hay`. -/
def containsSub (hay needle : List Char) : Bool :=
  match hay with
  | [] => needle.isEmpty
  | _ :: cs => needle.isPrefixOf hay || containsSub cs needle

/-- Replace the first occurrence of `a` in a list (Python
`cmd[cmd.index(a)] = b`). -/
def replaceFirst : List String → String → String → List String
  | [], _, _ => []
  | x :: xs, a, b => if x = a then b :: xs else x :: replaceFirst xs a b

/-- Model of POSIX `os.path.basename`: the part after the last `/`. -/
def basename (p : String) : String :=
  String.mk ((p.data.reverse.takeWhile (fun c => c != '/')).reverse)

/-- Model of POSIX `os.path.dirname`: the part before the last `/`, with
trailing slashes stripped unless the head is all slashes. -/
def dirname (p : String) : String :=
  let head := (p.data.reverse.dropWhile (fun c => c != '/')).reverse
  if head ≠ [] ∧ head.any (fun c => c != '/') then
    String.mk ((head.reverse.dropWhile (fun c => c == '/')).reverse)
  else
    String.mk head

/-- Decimal value of a run of digit characters (Python `int(...)` on the
digit substrings captured by `VERSION_RE`). -/
def digitsToInt (ds : List Char) : Int :=
  ((ds.foldl (fun n c => 10 * n + (c.toNat - 48)) 0 : Nat) : Int)

/-! ### Version model (`util.py` lines 312-320 and 417-441) -/

/-- The `{'major': ..., 'minor': ...}` dicts used throughout `util.py`;
`none` models Python `None`. -/
structure VersionDict where
  major : Option Int
  minor : Option Int
deriving DecidableEq, Repr

/-- Embedding of `util.version_fulfills_request` (lines 417-441). -/
def version_fulfills_request (available_version requested_version : VersionDict) : Bool :=
  -- No requested major version is fulfilled by anything
  if requested_version.major = none then true
  -- If major version is requested, that at least must match
  else if requested_version.major ≠ available_version.major then false
  -- Major version matches, if no requested minor version it's a match
  else if requested_version.minor = none then true
  -- If a minor version is requested, the available minor version must be >=
  else
    match available_version.minor, requested_version.minor with
    | some am, some rm => decide (rm ≤ am)
    | _, _ => false

/-- Embedding of `util.extract_major_minor_version` (lines 312-320), i.e. of
`VERSION_RE.match(version)` for `VERSION_RE = (?P<major>\d+)(?:\.(?P<minor>\d+))?`
followed by `int(...)` on the captured groups.  `re.match` anchors at the
start of the string, `\d+` greedily takes the leading digit run, and the
optional group matches only when a `.` is immediately followed by a digit. -/
def extract_major_minor_version (version : String) : VersionDict :=
  let cs := version.data
  let majDigits := cs.takeWhile Char.isDigit
  if majDigits = [] then
    ⟨none, none⟩
  else
    match cs.dropWhile Char.isDigit with
    | '.' :: rest2 =>
      let minDigits := rest2.takeWhile Char.isDigit
      if minDigits = [] then
        ⟨some (digitsToInt majDigits), none⟩
      else
        ⟨some (digitsToInt majDigits), some (digitsToInt minDigits)⟩
    | _ => ⟨some (digitsToInt majDigits), none⟩

/-! ### Errors and environment mappings -/

/-- The Python exceptions that can escape the embedded code. -/
inductive PyErr where
  | keyError
  | ioError
deriving DecidableEq, Repr

/-- A Python `dict` of environment variables, as an insertion-ordered
association list (keys assumed distinct, as they are for `os.environ`). -/
abbrev EnvMap := List (String × String)

/-- Model of `env[k]`, as an `Option` (`none` models a missing key). -/
def envGet (env : EnvMap) (k : String) : Option String :=
  (env.find? (fun kv => kv.1 == k)).map (fun kv => kv.2)

/-- Model of `env[k] = v`: replace the value in place, or append a new binding. -/
def envSet (env : EnvMap) (k v : String) : EnvMap :=
  if env.any (fun kv => kv.1 == k) then
    env.map (fun kv => if kv.1 == k then (k, v) else kv)
  else
    env ++ [(k, v)]

/-- Model of `env.update(extra)`. -/
def envUpdate (env : EnvMap) (extra : EnvMap) : EnvMap :=
  extra.foldl (fun e kv => envSet e kv.1 kv.2) env

/-! ### Shell PATH probing (`util.py` lines 110-177)

`run_shell_cmd` spawns the login shell and returns its decoded output
(empty on timeout); it is modelled as an oracle
`probe : List String → String` mapping the command to that output. -/

/-- The `__SUBL_PATH__` marker used to delimit the probed PATH. -/
def SUBL_PATH_MARKER : List Char := "__SUBL_PATH__".data

/-- Embedding of `util.extract_path` (lines 123-138).  `probe cmd` stands for
`run_shell_cmd(cmd).decode()`.  When the marker is not found the source pops
a `sublime.error_message` dialog and returns the empty string. -/
def extract_path (probe : List String → String) (cmd : List String)
    (delim : List Char := [':']) : String :=
  let out := probe cmd
  match pySplit SUBL_PATH_MARKER out.data 2 with
  | _ :: p1 :: _ =>
    String.mk (List.intercalate [':'] (pySplit delim (pyStrip p1) (pyStrip p1).length))
  | _ => ""

/-- The fallback of `util.get_shell_path` (lines 166-177): the ambient `PATH`
with fixed common directories appended when absent.  Raises `KeyError` when
the environment has no `PATH` (as `env['PATH']` would). -/
def guess_path (env : EnvMap) : Except PyErr String :=
  match envGet env "PATH" with
  | none => .error .keyError
  | some p0 =>
    let split := (pySplit [':'] p0.data p0.data.length).map String.mk
    let p := ["/usr/bin", "/usr/local/bin", "/usr/local/php/bin", "/usr/local/php5/bin"].foldl
      (fun acc path => if ¬ split.contains path then acc ++ ":" ++ path else acc) p0
    .ok p

/-- Embedding of `util.get_shell_path` (lines 141-177). -/
def get_shell_path (probe : List String → String) (env : EnvMap) : Except PyErr String :=
  match envGet env "SHELL" with
  | some shell_path =>
    let shell := basename shell_path
    if shell = "bash" ∨ shell = "zsh" then
      .ok (extract_path probe
        [shell_path, "-l", "-c", "echo \"__SUBL_PATH__${PATH}__SUBL_PATH__\""])
    else if shell = "fish" then
      .ok (extract_path probe
        [shell_path, "-l", "-c",
         "echo \"__SUBL_PATH__\"; for p in $PATH; echo $p; end; echo \"__SUBL_PATH__\""]
        ['\n'])
    else
      guess_path env
  | none => guess_path env

/-! ### Process environment (`util.py` lines 243-282) -/

/-- The host-side inputs of `create_environment`: `os.name`, `os.environ`,
the login-shell probe, and the `pandoc_path` Sublime setting. -/
structure SublimeEnv where
  osName : String
  osEnviron : EnvMap
  probe : List String → String
  pandocSetting : Option String
  platform : String

/-- Model of `os.pathsep`. -/
def os_pathsep (osName : String) : String :=
  if osName = "posix" then ":" else ";"

/-- Embedding of the body of `util.create_environment` (lines 243-282),
without the `lru_cache`.  Note that in the source `paths` is the literal
empty dict `{}`, so `sublime.platform() in paths` is always false and the
platform-paths prepend is dead code. -/
def create_environment_pure (se : SublimeEnv) : Except PyErr EnvMap :=
  let env := se.osEnviron
  match (if se.osName = "posix" then
           (get_shell_path se.probe se.osEnviron).map (fun p => envSet env "PATH" p)
         else .ok env) with
  | .error e => .error e
  | .ok env =>
    let envE : Except PyErr EnvMap :=
      match se.pandocSetting with
      | some pandoc =>
        match envGet env "PATH" with
        | some p => .ok (envSet env "PATH" (pandoc ++ os_pathsep se.osName ++ p))
        | none => .error .keyError
      | none => .ok env
    envE.map (fun env => envSet env "PYTHONIOENCODING" "utf8")

/-- Embedding of `util.create_environment` with its `lru_cache` made explicit: the cache
cell holds the dict object returned to every caller.  Returns the dict and
the new cache cell. -/
def create_environment (se : SublimeEnv) (cache : Option EnvMap) :
    Except PyErr (EnvMap × Option EnvMap) :=
  match cache with
  | some e => .ok (e, some e)
  | none => (create_environment_pure se).map (fun e => (e, some e))

/-! ### Output combination (`util.py` lines 52 and 589-596) -/

/-- Strip ANSI color sequences: model of `ANSI_COLOR_RE.sub('', ...)` for
`ANSI_COLOR_RE = \033\[[0-9;]*m`. -/
def stripAnsi : List Char → List Char
  | [] => []
  | '\x1b' :: '[' :: rest2 =>
    (match h : rest2.dropWhile (fun d => d.isDigit || d == ';') with
     | 'm' :: rest3 => stripAnsi rest3
     | _ => '\x1b' :: '[' :: stripAnsi rest2)
  | c :: rest => c :: stripAnsi rest
termination_by l => l.length
decreasing_by
  all_goals simp_wf
  all_goals try omega
  have hle : ∀ (l : List Char), (l.dropWhile (fun d => d.isDigit || d == ';')).length ≤ l.length := by
    intro l
    induction l with
    | nil => simp [List.dropWhile]
    | cons a as ih =>
      rw [List.dropWhile_cons]
      split
      · exact Nat.le_succ_of_le ih
      · exact Nat.le_refl _
  have h2 := hle rest2
  rw [h] at h2
  simp at h2
  omega

/-- Embedding of `util.combine_output` (lines 589-596).  The two components
model the child's decoded stdout and stderr, `none` standing for a stream
that was not captured. -/
def combine_output (out : Option String × Option String) (sep : String := "") : String :=
  let s1 := match out.1 with | some s => s | none => ""
  let s2 := match out.2 with | some s => s | none => ""
  String.mk (stripAnsi (s1 ++ sep ++ s2).data)

/-! ### Process spawning (`util.py` lines 718-749 and 599-616) -/

/-- Public stream constants (lines 32-34). -/
def STREAM_STDOUT : Nat := 1

def STREAM_STDERR : Nat := 2

def STREAM_BOTH : Nat := STREAM_STDOUT + STREAM_STDERR

/-- Which of (stdout, stderr) is `subprocess.PIPE` (`true`) rather than
`subprocess.DEVNULL` (`false`), per `output_stream` (lines 728-735). -/
def streamConfig (output_stream : Nat) : Bool × Bool :=
  if output_stream = STREAM_BOTH then (true, true)
  else if output_stream = STREAM_STDOUT then (true, false)
  else (false, true)

/-- A spawned child: `run` maps the text written to its stdin to its decoded
(stdout, stderr) pair, `none` for a stream that was not piped. -/
structure Handle where
  run : String → Option String × Option String

/-- The OS process boundary: `spawn cmd env cfg` models `subprocess.Popen`
and returns `none` when the spawn raises (the `except` at lines 748-749). -/
structure SpawnWorld where
  se : SublimeEnv
  spawn : List String → EnvMap → Bool × Bool → Option Handle

/-- Embedding of `util.popen` (lines 718-749).  The cached dict of
`create_environment` is threaded explicitly; when `env` is `None` and
`extra_env` is given, `env.update(extra_env)` mutates that shared cached
dict in place, so the cache cell afterwards holds the updated mapping. -/
def popen (w : SpawnWorld) (cache : Option EnvMap) (cmd : List String)
    (output_stream : Nat := STREAM_BOTH) (envArg : Option EnvMap := none)
    (extra_env : Option EnvMap := none) :
    Except PyErr (Option Handle × Option EnvMap) :=
  match envArg with
  | some e =>
    let e2 := match extra_env with | some ex => envUpdate e ex | none => e
    .ok (w.spawn cmd e2 (streamConfig output_stream), cache)
  | none =>
    match create_environment w.se cache with
    | .error err => .error err
    | .ok (e, cache2) =>
      match extra_env with
      | some ex =>
        let e2 := envUpdate e ex
        .ok (w.spawn cmd e2 (streamConfig output_stream), some e2)
      | none => .ok (w.spawn cmd e (streamConfig output_stream), cache2)

/-- Embedding of `util.communicate` (lines 599-616). -/
def communicate (w : SpawnWorld) (cache : Option EnvMap) (cmd : List String)
    (code : String := "") (output_stream : Nat := STREAM_STDOUT)
    (env : Option EnvMap := none) :
    Except PyErr (String × Option EnvMap) :=
  match popen w cache cmd output_stream none env with
  | .error e => .error e
  | .ok (some out, cache2) => .ok (combine_output (out.run code) "", cache2)
  | .ok (none, cache2) => .ok ("", cache2)

/-! ### Interpreter resolution (`util.py` lines 323-508)

`find_executable`, the `python -V` probe, `find_python_script`, the
Windows `glob('\Python*')` listing and `can_exec` all cross the OS
boundary; they enter the embedding as oracle fields of `PyEnv`. -/

/-- Host/oracle inputs of the interpreter resolver. -/
structure PyEnv where
  /-- Value of `sublime.platform()`: one of `"osx"`, `"linux"`, `"windows"`. -/
  platform : String
  /-- Value of `sys.version_info.major`. -/
  builtinMajor : Int
  /-- Value of `sys.version_info.minor`. -/
  builtinMinor : Int
  /-- Oracle for `util.find_executable` (PATH search, lines 533-558). -/
  find_executable : String → Option String
  /-- Decoded combined output of `communicate((path, '-V'), ...)`;
  `none` models an exception in the probe. -/
  versionOutput : String → Option String
  /-- Oracle for `util.find_python_script` (lines 496-508). -/
  find_python_script : String → String → Option String
  /-- Result of `glob(os.path.abspath('\Python') + '*')` (line 479). -/
  windowsPythonDirs : List String
  /-- Value of `len(os.path.abspath('\Python'))` (line 478). -/
  windowsPrefixLen : Nat
  /-- Oracle for `util.can_exec` (lines 285-287). -/
  can_exec : String → Bool

/-- Embedding of `util.get_python_version` (lines 323-334): probe
`path -V`, take `output.split(' ')[1]`, and parse it; any exception
(including the `IndexError` when the output has no second token) yields
`{'major': None, 'minor': None}`. -/
def get_python_version (env : PyEnv) (path : String) : VersionDict :=
  match env.versionOutput path with
  | none => ⟨none, none⟩
  | some output =>
    match (pySplit [' '] output.data output.data.length).get? 1 with
    | some tok => extract_major_minor_version (String.mk tok)
    | none => ⟨none, none⟩

/-- Embedding of `util.find_posix_python` (lines 444-462). -/
def find_posix_python (env : PyEnv) (version : String) : Option String :=
  if version ≠ "" then
    match env.find_executable ("python" ++ version) with
    | some path => some path
    | none =>
      match env.find_executable ("python" ++ String.mk (version.data.take 1)) with
      | some path => some path
      | none => env.find_executable "python"
  else
    env.find_executable "python"

/-- One pass of the directory scan in `util.find_windows_python`
(lines 482-489) for a single candidate version string. -/
def find_windows_match (env : PyEnv) (ver : String) : Option String :=
  env.windowsPythonDirs.findSome? (fun python_dir =>
    let path := python_dir ++ "\\python.exe"
    let python_version := String.mk (python_dir.data.drop env.windowsPrefixLen)
    if ver.data.isPrefixOf python_version.data ∧ env.can_exec path then some path else none)

/-- Embedding of `util.find_windows_python` (lines 465-493). -/
def find_windows_python (env : PyEnv) (version : String) : Option String :=
  if version ≠ "" then
    let stripped_version := String.mk (version.data.filter (fun c => c != '.'))
    match find_windows_match env stripped_version with
    | some path => some path
    | none =>
      match find_windows_match env (String.mk (stripped_version.data.take 1)) with
      | some path => some path
      | none => env.find_executable "python"
  else
    env.find_executable "python"

/-- Lines 401-414 of `util.find_python`: once a candidate path is chosen,
re-probe its actual version, clear `path`/`script_path` when the constraint
or the companion script fails, and build the result tuple. -/
def find_python_check (env : PyEnv) (path : Option String) (script : Option String)
    (requested_version available_version : VersionDict) :
    Option String × Option String × Option Int × Option Int :=
  match path with
  | some p =>
    if p ≠ "<builtin>" then
      let av := get_python_version env p
      if version_fulfills_request av requested_version then
        match script with
        | some s =>
          match env.find_python_script p s with
          | some sp => (some p, some sp, av.major, av.minor)
          | none => (none, none, av.major, av.minor)
        | none => (some p, none, av.major, av.minor)
      else
        (none, none, av.major, av.minor)
    else
      (some p, none, available_version.major, available_version.minor)
  | none => (none, none, available_version.major, available_version.minor)

/-- Embedding of `util.find_python` (lines 337-414), without the
`lru_cache`.  `module` is `some ()` when a module was supplied. -/
def find_python (env : PyEnv) (version : Option String) (script : Option String)
    (module : Option Unit) :
    Option String × Option String × Option Int × Option Int :=
  let available_version : VersionDict :=
    if module.isNone then ⟨none, none⟩
    else ⟨some env.builtinMajor, some env.builtinMinor⟩
  match version with
  | none =>
    if module.isSome then
      (some "<builtin>", script, available_version.major, available_version.minor)
    else
      find_python_check env (env.find_executable "python") script ⟨none, none⟩ available_version
  | some ver =>
    let requested_version := extract_major_minor_version ver
    let need_system_python :=
      module.isNone || !(version_fulfills_request available_version requested_version)
    let path : Option String :=
      if need_system_python then
        if env.platform = "osx" ∨ env.platform = "linux" then
          find_posix_python env ver
        else
          find_windows_python env ver
      else
        some "<builtin>"
    find_python_check env path script requested_version available_version

/-! ### Filesystem model for the sandbox builders (`util.py` lines 619-715)

The temp-file and temp-directory builders are embedded as functions that
record every filesystem side effect as an `FsOp`; a separate interpreter
`runOps` folds a trace over a set of existing paths, so the cleanup
invariants are stated against the trace semantics rather than baked into
the builders themselves. -/

/-- A filesystem side effect performed by a sandbox builder. -/
inductive FsOp where
  /-- A file is created (or overwritten) at a path. -/
  | createFile : String → FsOp
  /-- Removal by `os.remove`. -/
  | removeFile : String → FsOp
  /-- Creation by `tempfile.mkdtemp` or `os.makedirs`. -/
  | makeDir : String → FsOp
  /-- Removal by `shutil.rmtree(path, True)`. -/
  | removeTree : String → FsOp
deriving DecidableEq, Repr

/-- The path an operation acts on. -/
def FsOp.path : FsOp → String
  | .createFile p => p
  | .removeFile p => p
  | .makeDir p => p
  | .removeTree p => p

/-- Whether an operation creates a path (rather than removing one). -/
def FsOp.isCreate : FsOp → Bool
  | .createFile _ => true
  | .makeDir _ => true
  | _ => false

/-- Test that `q` is the directory `d` itself or lies underneath it. -/
def underDir (d q : String) : Bool :=
  q == d || (d ++ "/").data.isPrefixOf q.data

/-- Apply one filesystem operation to the set of existing paths. -/
def applyOp (fs : List String) : FsOp → List String
  | .createFile p => if fs.contains p then fs else fs ++ [p]
  | .makeDir p => if fs.contains p then fs else fs ++ [p]
  | .removeFile p => fs.filter (fun q => !(q == p))
  | .removeTree p => fs.filter (fun q => !(underDir p q))

/-- Run a trace of filesystem operations over the existing paths. -/
def runOps (fs : List String) (ops : List FsOp) : List String :=
  ops.foldl applyOp fs

/-- Result of a sandbox-builder call: the returned (or raised) value, the
filesystem trace, and the `create_environment` cache afterwards. -/
structure ExecTrace where
  result : Except PyErr String
  ops : List FsOp
  cache : Option EnvMap

/-- Oracle inputs of `tmpfile`: whether `tempfile.NamedTemporaryFile`
succeeds, the name it allocates, and whether `f.write`/`f.flush` succeed. -/
structure TmpfileOracle where
  createOk : Bool
  tmpName : String
  writeOk : Bool

/-- Embedding of `util.tmpfile` (lines 619-657).  The `try`/`finally`
structure of the source is reflected in the traces: whenever the temp file
was created (`createOk`), every branch — write failure, `popen` raising,
spawn failure, success — ends with exactly one `os.remove` of it. -/
def tmpfile (w : SpawnWorld) (o : TmpfileOracle) (cache : Option EnvMap)
    (cmd : List String) (code : String) (sfx : String := "")
    (output_stream : Nat := STREAM_STDOUT) (env : Option EnvMap := none) : ExecTrace :=
  if o.createOk then
    if o.writeOk then
      let cmd2 := if cmd.contains "@" then replaceFirst cmd "@" o.tmpName
                  else cmd ++ [o.tmpName]
      match popen w cache cmd2 output_stream none env with
      | .error e =>
        ⟨.error e, [.createFile o.tmpName, .removeFile o.tmpName], cache⟩
      | .ok (some out, cache2) =>
        ⟨.ok (combine_output (out.run "") ""),
         [.createFile o.tmpName, .removeFile o.tmpName], cache2⟩
      | .ok (none, cache2) =>
        ⟨.ok "", [.createFile o.tmpName, .removeFile o.tmpName], cache2⟩
    else
      ⟨.error .ioError, [.createFile o.tmpName, .removeFile o.tmpName], cache⟩
  else
    ⟨.error .ioError, [], cache⟩

/-- Oracle inputs of `tmpdir`: the directory `tempfile.mkdtemp` allocates
and whether mirroring each source file (the live-buffer write or
`shutil.copyfile`) succeeds. -/
structure TmpdirOracle where
  dirName : String
  fileOk : String → Bool

/-- The mirroring loop of `util.tmpdir` (lines 677-695): for each file,
`os.makedirs` of its directory (an `OSError` there is swallowed), then
either the live-buffer write (when the basename matches) or `copyfile`.
Returns whether an exception escaped the loop, plus the trace so far. -/
def tmpdirCopy (o : TmpdirOracle) (filename : String) :
    List String → Except PyErr Unit × List FsOp
  | [] => (.ok (), [])
  | f :: rest =>
    let target := o.dirName ++ "/" ++ f
    let mkOp : FsOp := .makeDir (o.dirName ++ "/" ++ dirname f)
    if basename target = filename then
      -- source file is updated from the live buffer
      if o.fileOk f then
        ((tmpdirCopy o filename rest).1,
         mkOp :: .createFile target :: (tmpdirCopy o filename rest).2)
      else
        (.error .ioError, [mkOp])
    else
      -- shutil.copyfile(f, target)
      if o.fileOk f then
        ((tmpdirCopy o filename rest).1,
         mkOp :: .createFile target :: (tmpdirCopy o filename rest).2)
      else
        (.error .ioError, [mkOp])

/-- The output filter of `util.tmpdir` (lines 707-709): keep the lines
whose part before the first `:` contains the target filename. -/
def tmpdir_filter_lines (lines : List (List Char)) (filename : String) : List (List Char) :=
  lines.filter (fun line => containsSub ((pySplit [':'] line 1).headD []) filename.data)

/-- Result of a `tmpdir` call: additionally records the working directory
of the process afterwards (`os.chdir` at line 697 is never undone). -/
structure DirTrace where
  result : Except PyErr String
  ops : List FsOp
  cache : Option EnvMap
  cwd : String

/-- Embedding of `util.tmpdir` (lines 660-715).  `cwd0` is the working
directory of the process when the call starts.  Every branch appends the
`finally` cleanup `shutil.rmtree(d, True)` to the trace. -/
def tmpdir (w : SpawnWorld) (o : TmpdirOracle) (cache : Option EnvMap)
    (cmd : List String) (files : List String) (filename0 : String) (code : String)
    (output_stream : Nat := STREAM_STDOUT) (env : Option EnvMap := none)
    (cwd0 : String := "/") : DirTrace :=
  let filename := basename filename0
  let d := o.dirName
  let copy := tmpdirCopy o filename files
  let allOps := FsOp.makeDir d :: copy.2 ++ [FsOp.removeTree d]
  match copy.1 with
  | .error e => ⟨.error e, allOps, cache, cwd0⟩
  | .ok _ =>
    -- os.chdir(d)
    match popen w cache cmd output_stream none env with
    | .error e => ⟨.error e, allOps, cache, d⟩
    | .ok (some out, cache2) =>
      let outS := combine_output (out.run "") "\n"
      let kept := tmpdir_filter_lines (pySplit ['\n'] outS.data outS.data.length) filename
      ⟨.ok (String.mk (List.intercalate ['\n'] kept)), allOps, cache2, d⟩
    | .ok (none, cache2) => ⟨.ok "", allOps, cache2, d⟩

/-! ### Concrete hosts and oracles used to instantiate the theorems -/

/-- A Linux host whose `python3` on `PATH` is actually a Python 2.7
interpreter, exercising the re-probe of `find_python`. -/
def envC3 : PyEnv :=
  { platform := "linux"
    builtinMajor := 3
    builtinMinor := 8
    find_executable := fun name => if name = "python3" then some "/usr/bin/python3" else none
    versionOutput := fun p => if p = "/usr/bin/python3" then some "Python 2.7.18" else none
    find_python_script := fun _ _ => none
    windowsPythonDirs := []
    windowsPrefixLen := 0
    can_exec := fun _ => false }

/-- A Windows host embedding Python 3.8 whose only installation directory
is `\Python27`, holding a Python 2.7 interpreter: requesting `"2.9"` with
the builtin flag set falls through to the directory scan (the builtin 3.8
fails the major match) and finds an interpreter whose probed minor is too
small. -/
def envC3w : PyEnv :=
  { platform := "windows"
    builtinMajor := 3
    builtinMinor := 8
    find_executable := fun _ => none
    versionOutput := fun p =>
      if p = "\\Python27\\python.exe" then some "Python 2.7.18" else none
    find_python_script := fun _ _ => none
    windowsPythonDirs := ["\\Python27"]
    windowsPrefixLen := 7
    can_exec := fun p => p == "\\Python27\\python.exe" }

/-- A Linux host embedding Python 3.8 with no filesystem pythons at all. -/
def envC7 : PyEnv :=
  { platform := "linux"
    builtinMajor := 3
    builtinMinor := 8
    find_executable := fun _ => none
    versionOutput := fun _ => none
    find_python_script := fun _ _ => none
    windowsPythonDirs := []
    windowsPrefixLen := 0
    can_exec := fun _ => false }

/-- A Linux host embedding Python 3.8 that has a real `python2.7` on
`PATH` reporting `Python 2.7.18`. -/
def envC7b : PyEnv :=
  { platform := "linux"
    builtinMajor := 3
    builtinMinor := 8
    find_executable := fun name =>
      if name = "python2.7" then some "/usr/bin/python2.7" else none
    versionOutput := fun p => if p = "/usr/bin/python2.7" then some "Python 2.7.18" else none
    find_python_script := fun _ _ => none
    windowsPythonDirs := []
    windowsPrefixLen := 0
    can_exec := fun _ => false }

/-- A non-POSIX host with `PATH=/a`, no pandoc setting, and a spawner
that always fails. -/
def seC6 : SublimeEnv :=
  { osName := "nt"
    osEnviron := [("PATH", "/a")]
    probe := fun _ => ""
    pandocSetting := none
    platform := "windows" }

/-- World pairing `seC6` with an always-failing spawner. -/
def wC6 : SpawnWorld := { se := seC6, spawn := fun _ _ _ => none }

/-- The environment `create_environment` builds on `seC6`. -/
def eC6before : EnvMap := [("PATH", "/a"), ("PYTHONIOENCODING", "utf8")]

/-- State of `eC6before` after `popen` merged the extra binding FOO=bar into it. -/
def eC6after : EnvMap := [("PATH", "/a"), ("PYTHONIOENCODING", "utf8"), ("FOO", "bar")]

/-- A non-POSIX host whose spawner always fails, for the spawn-failure
claims. -/
def wC8 : SpawnWorld :=
  { se := { osName := "nt"
            osEnviron := [("PATH", "/a")]
            probe := fun _ => ""
            pandocSetting := none
            platform := "windows" }
    spawn := fun _ _ _ => none }

/-- The environment `create_environment` builds on `wC8.se`. -/
def eC8 : EnvMap := [("PATH", "/a"), ("PYTHONIOENCODING", "utf8")]

/-- A world for the sandbox-builder witnesses (spawn always fails, so no
child output matters). -/
def wC5 : SpawnWorld :=
  { se := { osName := "nt"
            osEnviron := [("PATH", "/a")]
            probe := fun _ => ""
            pandocSetting := none
            platform := "windows" }
    spawn := fun _ _ _ => none }

/-- A successful temp-file oracle allocating `/tmp/t1.py`. -/
def oC5 : TmpfileOracle := { createOk := true, tmpName := "/tmp/t1.py", writeOk := true }

/-- A successful temp-directory oracle allocating `/tmp/d1`. -/
def oC5d : TmpdirOracle := { dirName := "/tmp/d1", fileOk := fun _ => true }

/-- A world for the `tmpdir` working-directory witness. -/
def wC10 : SpawnWorld :=
  { se := { osName := "nt"
            osEnviron := [("PATH", "/a")]
            probe := fun _ => ""
            pandocSetting := none
            platform := "windows" }
    spawn := fun _ _ _ => none }

/-- A successful temp-directory oracle allocating `/tmp/d2`. -/
def oC10 : TmpdirOracle := { dirName := "/tmp/d2", fileOk := fun _ => true }

/-! ## Theorems -/

/-- C1: `version_fulfills_request(available, requested)` implements the
constraint semantics: an absent requested major always fulfills; a set
requested major differing from the available major never fulfills; a
matching major with absent requested minor fulfills; and with both
requested major and minor set, the request is fulfilled iff the available
major equals the requested major and the available minor is present and
`>=` the requested minor. -/
theorem c1_version_fulfills_request_cases (available requested : VersionDict) :
    (requested.major = none → version_fulfills_request available requested = true)
    ∧ (requested.major ≠ none → requested.major ≠ available.major →
        version_fulfills_request available requested = false)
    ∧ (requested.major ≠ none → requested.major = available.major →
        requested.minor = none →
        version_fulfills_request available requested = true)
    ∧ (∀ M N : Int, requested.major = some M → requested.minor = some N →
        (version_fulfills_request available requested = true ↔
          available.major = some M ∧ ∃ K : Int, available.minor = some K ∧ N ≤ K)) := by
  obtain ⟨amaj, amin⟩ := available
  obtain ⟨rmaj, rmin⟩ := requested
  cases rmaj <;> cases rmin <;> cases amaj <;> cases amin <;>
    simp_all [version_fulfills_request] <;> omega

/-- Witness for C1 at concrete versions: available 3.8 fulfills a request
for 3.6 by the last case of the characterization. -/
theorem c1_witness :
    version_fulfills_request ⟨some 3, some 8⟩ ⟨some 3, some 6⟩ = true :=
  ((c1_version_fulfills_request_cases ⟨some 3, some 8⟩ ⟨some 3, some 6⟩).2.2.2 3 6
    rfl rfl).mpr ⟨rfl, 8, rfl, by omega⟩

/-- Splitting a list at a boundary where a predicate stops holding:
`takeWhile` keeps exactly the leading block and `dropWhile` exactly the
rest. -/
theorem takeWhile_all_append (p : Char → Bool) (l1 l2 : List Char)
    (h1 : l1.all p = true) (h2 : ∀ c, l2.head? = some c → p c = false) :
    (l1 ++ l2).takeWhile p = l1 ∧ (l1 ++ l2).dropWhile p = l2 := by
  induction l1 with
  | nil =>
    simp only [List.nil_append]
    cases l2 with
    | nil => simp
    | cons c cs =>
      have hc := h2 c rfl
      rw [List.takeWhile_cons, List.dropWhile_cons, hc]
      simp
  | cons a l1 ih =>
    simp only [List.all_cons, Bool.and_eq_true] at h1
    rw [List.cons_append, List.takeWhile_cons, List.dropWhile_cons, h1.1]
    simp only [if_true]
    have := ih h1.2
    exact ⟨by rw [this.1], this.2⟩

/-- C2: `extract_major_minor_version` parses a version string as the
anchored regex `(\d+)(\.(\d+))?` followed by `int(...)`: the empty string
and any string not starting with a digit yield `{absent, absent}`; a
leading digit run `ds` followed by anything that is neither a digit nor a
dot-then-digit yields `{ds, absent}`; and a leading digit run followed by
a dot, a digit run `ms`, and a non-digit remainder yields `{ds, ms}`. -/
theorem c2_extract_version_cases :
    (extract_major_minor_version "" = ⟨none, none⟩)
    ∧ (∀ (c : Char) (cs : List Char), c.isDigit = false →
        extract_major_minor_version (String.mk (c :: cs)) = ⟨none, none⟩)
    ∧ (∀ (ds rest : List Char), ds ≠ [] → ds.all Char.isDigit = true →
        (∀ c, rest.head? = some c → c.isDigit = false) →
        (∀ rest2 c, rest = '.' :: rest2 → rest2.head? = some c → c.isDigit = false) →
        extract_major_minor_version (String.mk (ds ++ rest)) =
          ⟨some (digitsToInt ds), none⟩)
    ∧ (∀ (ds ms rest : List Char), ds ≠ [] → ms ≠ [] →
        ds.all Char.isDigit = true → ms.all Char.isDigit = true →
        (∀ c, rest.head? = some c → c.isDigit = false) →
        extract_major_minor_version (String.mk (ds ++ '.' :: (ms ++ rest))) =
          ⟨some (digitsToInt ds), some (digitsToInt ms)⟩) := by
  refine ⟨by rfl, ?_, ?_, ?_⟩
  · intro c cs hc
    simp [extract_major_minor_version, List.takeWhile_cons, hc]
  · intro ds rest hne hall hhead hdot
    have H := takeWhile_all_append Char.isDigit ds rest hall hhead
    simp only [extract_major_minor_version]
    rw [H.1, H.2, if_neg hne]
    cases rest with
    | nil => rfl
    | cons r rs =>
      by_cases hr : r = '.'
      · subst hr
        cases rs with
        | nil => rfl
        | cons x xs =>
          have hx := hdot (x :: xs) x rfl rfl
          simp [List.takeWhile_cons, hx]
      · cases hrc : r <;> simp_all
  · intro ds ms rest hds hms hallds hallms hhead
    have hdot : ∀ c, ('.' :: (ms ++ rest)).head? = some c → Char.isDigit c = false := by
      intro c hc
      simp only [List.head?] at hc
      cases hc
      rfl
    have H := takeWhile_all_append Char.isDigit ds ('.' :: (ms ++ rest)) hallds hdot
    have hmhead : ∀ c, rest.head? = some c → Char.isDigit c = false := hhead
    have H2 := takeWhile_all_append Char.isDigit ms rest hallms hmhead
    simp only [extract_major_minor_version]
    rw [H.1, H.2, if_neg hds]
    simp only [H2.1]
    rw [if_neg hms]

/-- Witness for C2: `"3"` parses to `{3, absent}`, `"3.8"` parses to
`{3, 8}`, and `"x"` parses to `{absent, absent}`, by the corresponding
cases of the characterization. -/
theorem c2_witness :
    extract_major_minor_version (String.mk ['3']) = ⟨some (digitsToInt ['3']), none⟩
    ∧ extract_major_minor_version (String.mk (['3'] ++ '.' :: (['8'] ++ []))) =
        ⟨some (digitsToInt ['3']), some (digitsToInt ['8'])⟩
    ∧ extract_major_minor_version (String.mk ('x' :: [])) = ⟨none, none⟩ :=
  ⟨by
    have h := c2_extract_version_cases.2.2.1 ['3'] [] (by decide) (by decide)
      (by intro c hc; simp at hc) (by intro r2 c hr hc; simp at hr)
    simpa using h,
   c2_extract_version_cases.2.2.2 ['3'] ['8'] [] (by decide) (by decide) (by decide)
      (by decide) (by intro c hc; simp at hc),
   c2_extract_version_cases.2.1 'x' [] (by decide)⟩

/-- C3 counterexample: on `envC3`, requesting version `"3"` finds the
filesystem path `/usr/bin/python3`, whose probed version `2.7` does not
satisfy the constraint — yet the returned tuple is
`(None, None, 2, 7)`, not the fully-absent `(None, None, None, None)`
the claim demands: only path and script are cleared, while the probed
major/minor are returned. -/
theorem c3_counterexample :
    find_posix_python envC3 "3" = some "/usr/bin/python3"
    ∧ version_fulfills_request (get_python_version envC3 "/usr/bin/python3")
        (extract_major_minor_version "3") = false
    ∧ find_python envC3 (some "3") none none = (none, none, some 2, some 7)
    ∧ find_python envC3 (some "3") none none ≠ (none, none, none, none) :=
  ⟨by decide, by decide, by decide, by decide⟩

/-- C3 amended: whenever a filesystem interpreter path (not the builtin
sentinel) is found but its probed version does not satisfy the requested
constraint, `find_python` clears the path and the script path, but the
returned major/minor are those of the probed (unsatisfying) version, not
absent.  The first part covers every route that can reach the re-probe
with a filesystem path when a version string was requested: both the
POSIX and the Windows platform search (the `if` hypothesis is exactly the
platform dispatch of lines 394-398), with the builtin flag either absent
or present-but-unsatisfied (the disjunctive `need_system_python`
hypothesis of lines 388-391).  The second part shows that the remaining
route — no requested version, so the constraint parses to
`{absent, absent}` — can never reach the clearing branch, because a
vacuous constraint is satisfied by every probed version. -/
theorem c3_path_cleared_probed_version_returned :
    (∀ (env : PyEnv) (ver : String) (script : Option String) (module : Option Unit)
       (p : String),
      (module = none ∨ version_fulfills_request
          ⟨some env.builtinMajor, some env.builtinMinor⟩
          (extract_major_minor_version ver) = false) →
      (if env.platform = "osx" ∨ env.platform = "linux" then
          find_posix_python env ver
        else
          find_windows_python env ver) = some p →
      p ≠ "<builtin>" →
      version_fulfills_request (get_python_version env p)
        (extract_major_minor_version ver) = false →
      find_python env (some ver) script module =
        (none, none, (get_python_version env p).major, (get_python_version env p).minor))
    ∧ (∀ available : VersionDict,
        version_fulfills_request available ⟨none, none⟩ = true) := by
  constructor
  · intro env ver script module p hneed hsys hnb hvfr
    cases module with
    | none =>
      simp only [find_python, Option.isNone_none, Bool.true_or, if_true]
      rw [hsys]
      simp [find_python_check, hnb, hvfr]
    | some u =>
      cases u
      rcases hneed with h | h
      · simp at h
      · simp only [find_python, Option.isNone_some, Bool.false_or, h, Bool.not_false, if_true]
        rw [hsys]
        simp [find_python_check, hnb, hvfr, h]
  · intro available
    rfl

/-- Witness for the amended C3: once at the Linux host `envC3` with no
builtin flag (the POSIX search route), and once at the Windows host
`envC3w` with the builtin flag set and unsatisfied (the directory-scan
fallthrough route). -/
theorem c3_witness :
    find_python envC3 (some "3") none none =
      (none, none, (get_python_version envC3 "/usr/bin/python3").major,
        (get_python_version envC3 "/usr/bin/python3").minor)
    ∧ find_python envC3w (some "2.9") none (some ()) =
      (none, none, (get_python_version envC3w "\\Python27\\python.exe").major,
        (get_python_version envC3w "\\Python27\\python.exe").minor) :=
  ⟨c3_path_cleared_probed_version_returned.1 envC3 "3" none none "/usr/bin/python3"
      (Or.inl rfl) (by decide) (by decide) (by decide),
   c3_path_cleared_probed_version_returned.1 envC3w "2.9" none (some ())
      "\\Python27\\python.exe" (Or.inr (by decide)) (by decide) (by decide) (by decide)⟩

/-- C7: with the builtin flag set and a requested version string, if the
host's own major/minor satisfies the parsed constraint, `find_python`
returns the `<builtin>` sentinel with the host's version and consults no
filesystem oracle (the result is the same for every oracle); and on a
3.8 host, requesting `"2.7"` falls through to filesystem probing,
returning the probed filesystem candidate. -/
theorem c7_builtin_resolution :
    (∀ (env : PyEnv) (ver : String) (script : Option String),
      version_fulfills_request ⟨some env.builtinMajor, some env.builtinMinor⟩
        (extract_major_minor_version ver) = true →
      find_python env (some ver) script (some ()) =
        (some "<builtin>", none, some env.builtinMajor, some env.builtinMinor))
    ∧ (∀ (env : PyEnv) (p : String),
      env.builtinMajor = 3 → env.builtinMinor = 8 →
      (env.platform = "osx" ∨ env.platform = "linux") →
      find_posix_python env "2.7" = some p → p ≠ "<builtin>" →
      get_python_version env p = ⟨some 2, some 7⟩ →
      find_python env (some "2.7") none (some ()) = (some p, none, some 2, some 7)) := by
  constructor
  · intro env ver script hvfr
    simp [find_python, find_python_check, hvfr]
  · intro env p h3 h8 hplat hfind hnb hver
    have hreq : extract_major_minor_version "2.7" = ⟨some 2, some 7⟩ := by decide
    have hneed : version_fulfills_request ⟨some env.builtinMajor, some env.builtinMinor⟩
        (extract_major_minor_version "2.7") = false := by
      rw [h3, h8, hreq]
      decide
    simp only [find_python, Option.isNone_some, Bool.false_or, hneed, Bool.not_false, if_true]
    rw [if_pos hplat, hfind]
    have hneed2 : version_fulfills_request ⟨some env.builtinMajor, some env.builtinMinor⟩
        (⟨some 2, some 7⟩ : VersionDict) = false := by
      rw [h3, h8]
      decide
    have htrue : version_fulfills_request ⟨some 2, some 7⟩ (⟨some 2, some 7⟩ : VersionDict)
        = true := by decide
    simp [find_python_check, hnb, hver, hreq, hneed2, htrue]

/-- Witness for C7: requesting `"3"` on the 3.8 host `envC7` yields the
builtin sentinel with version 3.8; requesting `"2.7"` on the 3.8 host
`envC7b` yields the probed `/usr/bin/python2.7`. -/
theorem c7_witness :
    find_python envC7 (some "3") none (some ()) = (some "<builtin>", none, some 3, some 8)
    ∧ find_python envC7b (some "2.7") none (some ()) =
        (some "/usr/bin/python2.7", none, some 2, some 7) :=
  ⟨c7_builtin_resolution.1 envC7 "3" none (by decide),
   c7_builtin_resolution.2 envC7b "/usr/bin/python2.7" rfl rfl (Or.inr rfl)
     (by decide) (by decide) (by decide)⟩

/-- A successful `List.isPrefixOf` test yields an append decomposition. -/
theorem isPrefixOf_exists_append (l1 : List Char) :
    ∀ l2 : List Char, l1.isPrefixOf l2 = true → ∃ t, l2 = l1 ++ t := by
  induction l1 with
  | nil => exact fun l2 _ => ⟨l2, rfl⟩
  | cons a as ih =>
    intro l2 h
    cases l2 with
    | nil => simp [List.isPrefixOf] at h
    | cons b bs =>
      simp only [List.isPrefixOf, Bool.and_eq_true, beq_iff_eq] at h
      obtain ⟨t, ht⟩ := ih bs h.2
      exact ⟨t, by rw [h.1, ht]; rfl⟩

/-- When `sep` occurs nowhere in `s` (no append decomposition exists),
`findSplit` returns `none`. -/
theorem findSplit_eq_none (sep : List Char) :
    ∀ s : List Char, (∀ pre post, s ≠ pre ++ sep ++ post) → findSplit sep s = none := by
  intro s
  induction s with
  | nil => intro _; rfl
  | cons c cs ih =>
    intro h
    rw [findSplit, if_neg, ih, Option.map_none']
    · intro pre post heq
      exact h (c :: pre) post (by rw [heq]; rfl)
    · rintro ⟨hne, hpre⟩
      obtain ⟨t, ht⟩ := isPrefixOf_exists_append sep (c :: cs) hpre
      exact h [] t (by simpa using ht)

/-- C4 counterexample: with `SHELL=/bin/bash`, `PATH=/a`, and a probe whose
captured output is empty (e.g. after a timeout), `get_shell_path` returns
the empty string — not the ambient `PATH` with the four common directories
appended, which is what the unrecognized-shell fallback `guess_path` would
have produced. -/
theorem c4_counterexample :
    get_shell_path (fun _ => "") [("SHELL", "/bin/bash"), ("PATH", "/a")] = .ok ""
    ∧ guess_path [("SHELL", "/bin/bash"), ("PATH", "/a")] =
        .ok "/a:/usr/bin:/usr/local/bin:/usr/local/php/bin:/usr/local/php5/bin"
    ∧ ("" : String) ≠ "/a:/usr/bin:/usr/local/bin:/usr/local/php/bin:/usr/local/php5/bin" :=
  ⟨rfl, rfl, by decide⟩

/-- C4 amended: when `$SHELL` names a recognized shell (bash, zsh or fish)
but the login-shell probe fails — the `__SUBL_PATH__` marker does not occur
in the captured output, e.g. because the probe timed out and produced empty
output — `get_shell_path` returns the empty string (after showing an error
dialog) and does not raise; the ambient-`PATH`-plus-fixed-directories
fallback applies only when `SHELL` is unset or names an unrecognized
shell. -/
theorem c4_probe_failure_returns_empty (probe : List String → String) (env : EnvMap)
    (shell_path : String)
    (hshell : envGet env "SHELL" = some shell_path)
    (hrec : basename shell_path = "bash" ∨ basename shell_path = "zsh"
      ∨ basename shell_path = "fish")
    (hfail : ∀ (c : List String) (pre post : List Char),
      (probe c).data ≠ pre ++ SUBL_PATH_MARKER ++ post) :
    get_shell_path probe env = .ok "" := by
  have hsplit : ∀ (c : List String),
      pySplit SUBL_PATH_MARKER (probe c).data 2 = [(probe c).data] := by
    intro c
    rw [pySplit, findSplit_eq_none SUBL_PATH_MARKER (probe c).data (hfail c)]
  simp only [get_shell_path, hshell]
  rcases hrec with h | h | h
  · rw [if_pos (Or.inl h)]
    rw [extract_path, hsplit]
  · rw [if_pos (Or.inr h)]
    rw [extract_path, hsplit]
  · rw [if_neg, if_pos h]
    · rw [extract_path, hsplit]
    · rintro (hb | hz)
      · rw [h] at hb
        exact absurd hb (by decide)
      · rw [h] at hz
        exact absurd hz (by decide)

/-- Witness for the amended C4: a bash login shell with an empty probe
output yields the empty string. -/
theorem c4_witness :
    get_shell_path (fun _ => "") [("SHELL", "/bin/zsh"), ("PATH", "/a")] = .ok "" :=
  c4_probe_failure_returns_empty (fun _ => "") [("SHELL", "/bin/zsh"), ("PATH", "/a")]
    "/bin/zsh" (by decide) (Or.inr (Or.inl (by decide)))
    (fun c pre post h => by
      have hlen := congrArg List.length h
      simp [SUBL_PATH_MARKER] at hlen
      omega)

/-- Lemma: `create_environment` always leaves its own return value in the cache
cell (the `lru_cache` stores the returned dict object). -/
theorem create_environment_cache_eq (se : SublimeEnv) (cache : Option EnvMap)
    (e : EnvMap) (c2 : Option EnvMap)
    (h : create_environment se cache = .ok (e, c2)) : c2 = some e := by
  cases cache with
  | some e0 =>
    rw [create_environment] at h
    injection h with h1
    cases h1
    rfl
  | none =>
    rw [create_environment] at h
    cases hp : create_environment_pure se with
    | error err => rw [hp] at h; exact absurd h (by simp [Except.map])
    | ok v =>
      rw [hp] at h
      injection h with h1
      have h2 : (v, some v) = (e, c2) := h1
      cases h2
      rfl

/-- C6 counterexample: on the host `seC6`, `create_environment` first
returns `eC6before` and caches it; a `popen` call with
`extra_env = {'FOO': 'bar'}` merges the extra variables into that cached
dict in place, so the next `create_environment` call returns `eC6after`,
which differs from the mapping returned before the `popen` call. -/
theorem c6_counterexample :
    create_environment seC6 none = .ok (eC6before, some eC6before)
    ∧ popen wC6 (some eC6before) ["tool"] STREAM_BOTH none (some [("FOO", "bar")]) =
        .ok (none, some eC6after)
    ∧ create_environment seC6 (some eC6after) = .ok (eC6after, some eC6after)
    ∧ eC6after ≠ eC6before :=
  ⟨rfl, rfl, rfl, by decide⟩

/-- C6 amended: a `popen` call with a non-absent `extra_env` (and no
explicit `env` argument) mutates the cached environment in place: the cache
afterwards holds the previous environment updated with `extra_env`, and a
subsequent `create_environment` call returns that updated mapping (which
differs from the previous one whenever the update is not trivial). -/
theorem c6_cache_mutation (w : SpawnWorld) (cache : Option EnvMap) (e : EnvMap)
    (cache2 : Option EnvMap) (cmd : List String) (ostream : Nat) (extra : EnvMap)
    (h : Option Handle) (cache3 : Option EnvMap)
    (hce : create_environment w.se cache = .ok (e, cache2))
    (hp : popen w cache2 cmd ostream none (some extra) = .ok (h, cache3)) :
    cache3 = some (envUpdate e extra)
    ∧ create_environment w.se cache3 = .ok (envUpdate e extra, cache3) := by
  have h2 : cache2 = some e := create_environment_cache_eq w.se cache e cache2 hce
  subst h2
  rw [popen] at hp
  simp only [create_environment] at hp
  injection hp with h1
  have hc3 : cache3 = some (envUpdate e extra) := (congrArg Prod.snd h1).symm
  subst hc3
  exact ⟨rfl, rfl⟩

/-- Witness for the amended C6 on the concrete host `seC6`. -/
theorem c6_witness :
    some eC6after = some (envUpdate eC6before [("FOO", "bar")])
    ∧ create_environment wC6.se (some eC6after) =
        .ok (envUpdate eC6before [("FOO", "bar")], some eC6after) :=
  c6_cache_mutation wC6 none eC6before (some eC6before) ["tool"] STREAM_BOTH
    [("FOO", "bar")] none (some eC6after) rfl rfl

/-- C8: when every spawn attempt fails, `popen` swallows the exception and
returns an absent handle (it does not raise), and `communicate` over the
absent handle returns the empty string — for every command, output mode
and extra environment. -/
theorem c8_spawn_failure_swallowed (w : SpawnWorld)
    (hsp : ∀ c e cfg, w.spawn c e cfg = none)
    (cache : Option EnvMap) (cmd : List String) (ostream : Nat)
    (extra : Option EnvMap) (code : String) (e : EnvMap) (c2 : Option EnvMap)
    (hce : create_environment w.se cache = .ok (e, c2)) :
    (∃ c3, popen w cache cmd ostream none extra = .ok (none, c3))
    ∧ (∃ c3, communicate w cache cmd code ostream extra = .ok ("", c3)) := by
  cases extra with
  | none =>
    refine ⟨⟨c2, ?_⟩, ⟨c2, ?_⟩⟩
    · simp only [popen, hce, hsp]
    · simp only [communicate, popen, hce, hsp]
  | some ex =>
    refine ⟨⟨some (envUpdate e ex), ?_⟩, ⟨some (envUpdate e ex), ?_⟩⟩
    · simp only [popen, hce, hsp]
    · simp only [communicate, popen, hce, hsp]

/-- Witness for C8 on the concrete world `wC8` whose spawner always
fails. -/
theorem c8_witness :
    (∃ c3, popen wC8 none ["tool"] STREAM_BOTH none none = .ok (none, c3))
    ∧ (∃ c3, communicate wC8 none ["tool"] "" STREAM_BOTH none = .ok ("", c3)) :=
  c8_spawn_failure_swallowed wC8 (fun _ _ _ => rfl) none ["tool"] STREAM_BOTH
    none "" eC8 (some eC8) rfl

/-- Lemma: `line.split(':', 1)[0]` is the part of the line before its first
colon (the whole line when it has none). -/
theorem pySplit_colon_headD (l : List Char) :
    (pySplit [':'] l 1).headD [] = l.takeWhile (fun c => c != ':') := by
  induction l with
  | nil => rfl
  | cons c cs ih =>
    by_cases hc : c = ':'
    · subst hc
      rw [pySplit]
      rw [show findSplit [':'] (':' :: cs) = some ([], cs) from by
        rw [findSplit, if_pos]
        · rfl
        · exact ⟨by decide, by simp [List.isPrefixOf]⟩]
      simp [List.takeWhile_cons]
    · have hpre : ([':'] : List Char).isPrefixOf (c :: cs) = false := by
        simp [List.isPrefixOf]
        exact fun h => absurd h.symm hc
      rw [pySplit]
      rw [show findSplit [':'] (c :: cs) = (findSplit [':'] cs).map (fun pq => (c :: pq.1, pq.2))
          from by rw [findSplit, if_neg]; rintro ⟨-, hp⟩; rw [hpre] at hp; exact absurd hp (by decide)]
      rw [pySplit] at ih
      cases hf : findSplit [':'] cs with
      | none =>
        rw [hf] at ih
        simp only [Option.map_none', List.headD] at ih ⊢
        rw [List.takeWhile_cons, if_pos (by simp [hc])]
        exact congrArg (List.cons c) ih
      | some pq =>
        rw [hf] at ih
        simp only [Option.map_some', List.headD] at ih ⊢
        rw [List.takeWhile_cons, if_pos (by simp [hc])]
        exact congrArg (List.cons c) ih

/-- A list with no colon is unchanged by `takeWhile (· != ':')`. -/
theorem takeWhile_of_no_colon (l : List Char) (h : l.contains ':' = false) :
    l.takeWhile (fun c => c != ':') = l := by
  induction l with
  | nil => rfl
  | cons c cs ih =>
    simp only [List.contains_cons, Bool.or_eq_false_iff] at h
    rw [List.takeWhile_cons, if_pos (bne_iff_ne.mpr (fun he => by rw [he] at h; simp at h))]
    rw [ih h.2]

/-- C9: the `tmpdir` output filter keeps exactly the lines whose portion
before the first colon (the whole line when it has no colon) contains the
target filename; in particular, of `"a.py:1: error"` and `"b.py:2: error"`
with target `"a.py"`, only the first line is retained. -/
theorem c9_output_filter :
    (∀ (lines : List (List Char)) (filename : String),
      tmpdir_filter_lines lines filename =
        lines.filter (fun line =>
          if line.contains ':' then
            containsSub (line.takeWhile (fun c => c != ':')) filename.data
          else
            containsSub line filename.data))
    ∧ tmpdir_filter_lines ["a.py:1: error".data, "b.py:2: error".data] "a.py" =
        ["a.py:1: error".data] := by
  constructor
  · intro lines filename
    unfold tmpdir_filter_lines
    apply List.filter_congr
    intro line _
    rw [pySplit_colon_headD]
    by_cases hc : line.contains ':' = true
    · rw [if_pos hc]
    · rw [if_neg hc, takeWhile_of_no_colon line (Bool.eq_false_iff.mpr hc)]
  · decide

/-- A list is a `isPrefixOf`-detected prefix of itself followed by
anything. -/
theorem isPrefixOf_self_append (l : List Char) :
    ∀ m : List Char, l.isPrefixOf (l ++ m) = true := by
  induction l with
  | nil => intro m; simp [List.isPrefixOf]
  | cons a as ih => intro m; simp [List.isPrefixOf, ih m]

/-- Lemma: `String.append` concatenates the character data. -/
theorem strData_append (a b : String) : (a ++ b).data = a.data ++ b.data := by
  cases a
  cases b
  rfl

/-- A directory is underneath itself. -/
theorem underDir_self (d : String) : underDir d d = true := by
  simp [underDir]

/-- A joined path `d ++ "/" ++ x` is underneath `d`. -/
theorem underDir_join (d x : String) : underDir d (d ++ "/" ++ x) = true := by
  have h : (d ++ "/").data.isPrefixOf ((d ++ "/") ++ x).data = true := by
    rw [strData_append]
    exact isPrefixOf_self_append (d ++ "/").data x.data
  simp [underDir, h]

/-- A filter that accepts every element of a list is the identity on it. -/
theorem filter_all_true {α : Type} (p : α → Bool) :
    ∀ l : List α, (∀ q ∈ l, p q = true) → l.filter p = l := by
  intro l
  induction l with
  | nil => intro _; rfl
  | cons a as ih =>
    intro h
    rw [List.filter_cons, if_pos (h a (List.mem_cons_self a as))]
    rw [ih (fun q hq => h q (List.mem_cons_of_mem a hq))]

/-- A filter that rejects every element of a list empties it. -/
theorem filter_all_false {α : Type} (p : α → Bool) :
    ∀ l : List α, (∀ q ∈ l, p q = false) → l.filter p = [] := by
  intro l
  induction l with
  | nil => intro _; rfl
  | cons a as ih =>
    intro h
    rw [List.filter_cons, if_neg (by rw [h a (List.mem_cons_self a as)]; exact Bool.false_ne_true)]
    exact ih (fun q hq => h q (List.mem_cons_of_mem a hq))

/-- Running an empty trace changes nothing. -/
theorem runOps_nil (fs : List String) : runOps fs [] = fs := rfl

/-- Running a trace peels one operation at a time. -/
theorem runOps_cons (fs : List String) (op : FsOp) (ops : List FsOp) :
    runOps fs (op :: ops) = runOps (applyOp fs op) ops := rfl

/-- Running a concatenated trace runs the parts in order. -/
theorem runOps_append (fs : List String) (l1 l2 : List FsOp) :
    runOps fs (l1 ++ l2) = runOps (runOps fs l1) l2 := by
  simp only [runOps]
  exact List.foldl_append _ _ _ _

/-- A `Bool`-level `contains` test fails for a non-member. -/
theorem contains_eq_false_of_not_mem {α : Type} [BEq α] [LawfulBEq α] (l : List α) (a : α)
    (h : ¬ a ∈ l) : l.contains a = false := by
  cases hc : l.contains a with
  | false => rfl
  | true => exact absurd (List.mem_of_elem_eq_true hc) h

/-- Running a trace of creations whose paths all lie underneath `d` over
`fs ++ extra` (with `extra` underneath `d`) only extends `extra` with more
paths underneath `d`. -/
theorem runOps_creates_under (d : String) :
    ∀ (ops : List FsOp) (fs extra : List String),
      (∀ op ∈ ops, op.isCreate = true ∧ underDir d op.path = true) →
      (∀ q ∈ extra, underDir d q = true) →
      ∃ extra2, runOps (fs ++ extra) ops = fs ++ extra2
        ∧ ∀ q ∈ extra2, underDir d q = true := by
  intro ops
  induction ops with
  | nil => exact fun fs extra _ hex => ⟨extra, rfl, hex⟩
  | cons op rest ih =>
    intro fs extra hops hex
    have hop := hops op (List.mem_cons_self _ _)
    have hrest : ∀ op ∈ rest, op.isCreate = true ∧ underDir d op.path = true :=
      fun o ho => hops o (List.mem_cons_of_mem _ ho)
    have hstep : ∀ p : String, underDir d p = true →
        (applyOp (fs ++ extra) (.createFile p) = fs ++ extra
          ∧ (fs ++ extra).contains p = true)
        ∨ applyOp (fs ++ extra) (.createFile p) = fs ++ (extra ++ [p]) := by
      intro p hp
      by_cases hmem : (fs ++ extra).contains p = true
      · exact Or.inl ⟨by rw [applyOp, if_pos hmem], hmem⟩
      · refine Or.inr ?_
        rw [applyOp, if_neg hmem, List.append_assoc]
    have hextra1 : ∀ p : String, underDir d p = true →
        ∀ q ∈ extra ++ [p], underDir d q = true := by
      intro p hp q hq
      rcases List.mem_append.mp hq with h | h
      · exact hex q h
      · rw [List.mem_singleton.mp h]
        exact hp
    cases op with
    | createFile p =>
      rw [runOps_cons]
      rcases hstep p hop.2 with ⟨heq, -⟩ | heq
      · rw [heq]
        exact ih fs extra hrest hex
      · rw [heq]
        exact ih fs (extra ++ [p]) hrest (hextra1 p hop.2)
    | makeDir p =>
      rw [runOps_cons]
      have hsame : applyOp (fs ++ extra) (FsOp.makeDir p) =
          applyOp (fs ++ extra) (FsOp.createFile p) := by
        rw [applyOp, applyOp]
      rw [hsame]
      rcases hstep p hop.2 with ⟨heq, -⟩ | heq
      · rw [heq]
        exact ih fs extra hrest hex
      · rw [heq]
        exact ih fs (extra ++ [p]) hrest (hextra1 p hop.2)
    | removeFile p => exact absurd hop.1 (by simp [FsOp.isCreate])
    | removeTree p => exact absurd hop.1 (by simp [FsOp.isCreate])

/-- The cleanup shape of both sandbox traces around a directory `d`: a
`mkdtemp`, a block of creations underneath `d`, and a final
`rmtree(d)` leave a filesystem with nothing underneath `d` unchanged. -/
theorem ops_clean (d : String) (copyOps : List FsOp) (fs0 : List String)
    (hcopy : ∀ op ∈ copyOps, op.isCreate = true ∧ underDir d op.path = true)
    (hfresh : ∀ q ∈ fs0, underDir d q = false) :
    runOps fs0 (FsOp.makeDir d :: copyOps ++ [FsOp.removeTree d]) = fs0 := by
  have hdnm : ¬ d ∈ fs0 := by
    intro hd
    have h1 := hfresh d hd
    rw [underDir_self d] at h1
    exact Bool.false_ne_true h1.symm
  have hdmem : fs0.contains d = false := contains_eq_false_of_not_mem fs0 d hdnm
  rw [List.cons_append, runOps_cons]
  rw [show applyOp fs0 (FsOp.makeDir d) = fs0 ++ [d] from by
    rw [applyOp, if_neg (by rw [hdmem]; exact Bool.false_ne_true)]]
  rw [runOps_append]
  obtain ⟨extra2, heq, hex2⟩ := runOps_creates_under d copyOps fs0 [d] hcopy
    (by intro q hq; rw [List.mem_singleton.mp hq]; exact underDir_self d)
  rw [heq, runOps_cons, runOps_nil]
  rw [show applyOp (fs0 ++ extra2) (FsOp.removeTree d) =
      (fs0 ++ extra2).filter (fun q => !(underDir d q)) from by rw [applyOp]]
  rw [List.filter_append]
  rw [filter_all_true _ fs0 (fun q hq => by rw [hfresh q hq]; rfl)]
  rw [filter_all_false _ extra2 (fun q hq => by rw [hex2 q hq]; rfl)]
  rw [List.append_nil]

/-- Every operation recorded by the mirroring loop is a creation
underneath the temp directory. -/
theorem tmpdirCopy_ops (o : TmpdirOracle) (filename : String) :
    ∀ files : List String, ∀ op ∈ (tmpdirCopy o filename files).2,
      op.isCreate = true ∧ underDir o.dirName op.path = true := by
  intro files
  induction files with
  | nil => intro op hop; simp [tmpdirCopy] at hop
  | cons f rest ih =>
    intro op hop
    simp only [tmpdirCopy] at hop
    have hcases : op = FsOp.makeDir (o.dirName ++ "/" ++ dirname f)
        ∨ op = FsOp.createFile (o.dirName ++ "/" ++ f)
        ∨ op ∈ (tmpdirCopy o filename rest).2 := by
      split at hop
      · split at hop
        · simp only [List.mem_cons] at hop
          exact hop
        · simp only [List.mem_singleton] at hop
          exact Or.inl hop
      · split at hop
        · simp only [List.mem_cons] at hop
          exact hop
        · simp only [List.mem_singleton] at hop
          exact Or.inl hop
    rcases hcases with h | h | h
    · rw [h]
      exact ⟨rfl, underDir_join o.dirName (dirname f)⟩
    · rw [h]
      exact ⟨rfl, underDir_join o.dirName f⟩
    · exact ih op h

/-- The trace of every `tmpdir` call is a `mkdtemp`, the mirroring
operations, and a final `rmtree`, on every control path. -/
theorem tmpdir_ops_eq (w : SpawnWorld) (o : TmpdirOracle) (cache : Option EnvMap)
    (cmd files : List String) (filename0 code : String) (ostream : Nat)
    (env : Option EnvMap) (cwd0 : String) :
    (tmpdir w o cache cmd files filename0 code ostream env cwd0).ops =
      FsOp.makeDir o.dirName :: (tmpdirCopy o (basename filename0) files).2
        ++ [FsOp.removeTree o.dirName] := by
  rw [tmpdir]
  cases (tmpdirCopy o (basename filename0) files).1 with
  | error e => rfl
  | ok u =>
    cases popen w cache cmd ostream none env with
    | error e => rfl
    | ok pr =>
      obtain ⟨ho, c2⟩ := pr
      cases ho <;> rfl

/-- The trace of every `tmpfile` call: when the temp file was created it
is exactly a creation followed by one removal, otherwise empty. -/
theorem tmpfile_ops_eq (w : SpawnWorld) (o : TmpfileOracle) (cache : Option EnvMap)
    (cmd : List String) (code sfx : String) (ostream : Nat) (env : Option EnvMap) :
    (tmpfile w o cache cmd code sfx ostream env).ops =
      if o.createOk then [FsOp.createFile o.tmpName, FsOp.removeFile o.tmpName] else [] := by
  rw [tmpfile]
  cases hc : o.createOk with
  | false => simp
  | true =>
    simp only [if_true]
    cases o.writeOk with
    | false => simp
    | true =>
      simp only [if_true]
      cases popen w cache
          (if cmd.contains "@" then replaceFirst cmd "@" o.tmpName else cmd ++ [o.tmpName])
          ostream none env with
      | error e => rfl
      | ok pr =>
        obtain ⟨ho, c2⟩ := pr
        cases ho <;> rfl

/-- C5: after any call to `tmpfile` or `tmpdir` — tool success, spawn
failure, or an exception while writing/copying — no temporary file or
directory created by that call remains (running the recorded trace over
any filesystem not already holding the fresh temp paths leaves it
unchanged), and the temp file of `tmpfile` is removed exactly once. -/
theorem c5_sandbox_cleanup :
    (∀ (w : SpawnWorld) (o : TmpfileOracle) (cache : Option EnvMap) (cmd : List String)
       (code sfx : String) (ostream : Nat) (env : Option EnvMap) (fs0 : List String),
      ¬ o.tmpName ∈ fs0 →
      runOps fs0 (tmpfile w o cache cmd code sfx ostream env).ops = fs0
      ∧ (o.createOk = true →
          ((tmpfile w o cache cmd code sfx ostream env).ops).countP
            (fun op => op = FsOp.removeFile o.tmpName) = 1))
    ∧ (∀ (w : SpawnWorld) (o : TmpdirOracle) (cache : Option EnvMap) (cmd files : List String)
       (filename0 code : String) (ostream : Nat) (env : Option EnvMap) (cwd0 : String)
       (fs0 : List String),
      (∀ q ∈ fs0, underDir o.dirName q = false) →
      runOps fs0 (tmpdir w o cache cmd files filename0 code ostream env cwd0).ops = fs0) := by
  constructor
  · intro w o cache cmd code sfx ostream env fs0 hmem
    rw [tmpfile_ops_eq]
    cases hc : o.createOk with
    | false =>
      refine ⟨rfl, fun h => absurd h Bool.false_ne_true⟩
    | true =>
      simp only [if_true]
      constructor
      · have hnotc : fs0.contains o.tmpName = false := by
          by_cases h : fs0.contains o.tmpName = true
          · exact absurd (List.elem_iff.mp h) hmem
          · exact Bool.eq_false_iff.mpr h
        simp only [runOps, List.foldl_cons, List.foldl_nil]
        rw [show applyOp fs0 (FsOp.createFile o.tmpName) = fs0 ++ [o.tmpName] from by
          rw [applyOp, if_neg (by rw [hnotc]; exact Bool.false_ne_true)]]
        rw [show applyOp (fs0 ++ [o.tmpName]) (FsOp.removeFile o.tmpName) =
            (fs0 ++ [o.tmpName]).filter (fun q => !(q == o.tmpName)) from by rw [applyOp]]
        rw [List.filter_append]
        rw [filter_all_true _ fs0 (fun q hq => by
          have : (q == o.tmpName) = false :=
            beq_eq_false_iff_ne.mpr (fun he => hmem (he ▸ hq))
          rw [this]
          rfl)]
        rw [filter_all_false _ [o.tmpName] (fun q hq => by
          rw [List.mem_singleton.mp hq]
          simp)]
        rw [List.append_nil]
      · intro _
        simp [List.countP_cons]
  · intro w o cache cmd files filename0 code ostream env cwd0 fs0 hfresh
    rw [tmpdir_ops_eq]
    exact ops_clean o.dirName (tmpdirCopy o (basename filename0) files).2 fs0
      (tmpdirCopy_ops o (basename filename0) files) hfresh

/-- Witness for C5: a concrete `tmpfile` and `tmpdir` call over
`fs0 = ["/home/u/keep.txt"]` leave it unchanged, and the temp file is
removed exactly once. -/
theorem c5_witness :
    runOps ["/home/u/keep.txt"]
      (tmpfile wC5 oC5 none ["tool"] "code" ".py" STREAM_STDOUT none).ops =
      ["/home/u/keep.txt"]
    ∧ ((tmpfile wC5 oC5 none ["tool"] "code" ".py" STREAM_STDOUT none).ops).countP
        (fun op => op = FsOp.removeFile oC5.tmpName) = 1
    ∧ runOps ["/home/u/keep.txt"]
        (tmpdir wC5 oC5d none ["tool"] ["a.py"] "a.py" "code" STREAM_STDOUT none "/").ops =
        ["/home/u/keep.txt"] := by
  have h1 := c5_sandbox_cleanup.1 wC5 oC5 none ["tool"] "code" ".py" STREAM_STDOUT none
    ["/home/u/keep.txt"] (by decide)
  have h2 := c5_sandbox_cleanup.2 wC5 oC5d none ["tool"] ["a.py"] "a.py" "code" STREAM_STDOUT
    none "/" ["/home/u/keep.txt"] (by decide)
  exact ⟨h1.1, h1.2 rfl, h2⟩

/-- C10: `tmpdir` switches the working directory to the temp mirror and
never restores it: whenever the call returns (with a result rather than an
exception), the process working directory afterwards is the temp directory
— which has by then been removed from the filesystem. -/
theorem c10_tmpdir_cwd (w : SpawnWorld) (o : TmpdirOracle) (cache : Option EnvMap)
    (cmd files : List String) (filename0 code : String) (ostream : Nat)
    (env : Option EnvMap) (cwd0 : String) (fs0 : List String) (s : String)
    (hfresh : ∀ q ∈ fs0, underDir o.dirName q = false)
    (hok : (tmpdir w o cache cmd files filename0 code ostream env cwd0).result = .ok s) :
    (tmpdir w o cache cmd files filename0 code ostream env cwd0).cwd = o.dirName
    ∧ ¬ o.dirName ∈ runOps fs0 (tmpdir w o cache cmd files filename0 code ostream env cwd0).ops := by
  constructor
  · rw [tmpdir] at hok ⊢
    cases hcp : (tmpdirCopy o (basename filename0) files).1 with
    | error e =>
      rw [hcp] at hok
      simp at hok
    | ok u =>
      rw [hcp] at hok
      cases hpo : popen w cache cmd ostream none env with
      | error e => rw [hpo] at hok
      | ok pr =>
        obtain ⟨ho, c2⟩ := pr
        cases ho <;> rfl
  · rw [tmpdir_ops_eq]
    rw [ops_clean o.dirName (tmpdirCopy o (basename filename0) files).2 fs0
      (tmpdirCopy_ops o (basename filename0) files) hfresh]
    intro hd
    have h1 := hfresh o.dirName hd
    rw [underDir_self o.dirName] at h1
    exact Bool.false_ne_true h1.symm

/-- Witness for C10 on a concrete successful `tmpdir` call. -/
theorem c10_witness :
    (tmpdir wC10 oC10 none ["tool"] ["a.py"] "a.py" "code" STREAM_STDOUT none "/").cwd = "/tmp/d2"
    ∧ ¬ "/tmp/d2" ∈ runOps ["/home/u/keep.txt"]
        (tmpdir wC10 oC10 none ["tool"] ["a.py"] "a.py" "code" STREAM_STDOUT none "/").ops :=
  c10_tmpdir_cwd wC10 oC10 none ["tool"] ["a.py"] "a.py" "code" STREAM_STDOUT none "/"
    ["/home/u/keep.txt"] "" (by decide) rfl

end Markmon
